import Mathlib

/-!
Shallow embedding of src/mails/static/js/mailtable.js.

The script is a single IIFE wiring up a mail table page: a CSRF-attaching
request interceptor, a global error handler, a due-date updater, a
client-side search filter, a popover/search initializer, and a
self-rescheduling refresh loop. All state lives in the DOM; we model the
DOM facts each function reads or writes as explicit records, and each
jQuery/XHR effect as a pure state transformer or an explicit effect value.

Conventions:
  - jQuery selections that the script treats uniformly over all matched
    elements (popover and keyup bindings) are modelled by the binding count
    of one representative element, since the same operation is applied to
    every matched element.
  - JS undefined/null string values are modelled as Option String, with
    none for undefined/null; the JS string coercion of undefined (as in
    URL concatenation) is made explicit by jsStr.
  - A thrown JS exception is modelled by Except Unit.
-/

deriving instance DecidableEq for Except

namespace mailtable

/-- An outgoing HTTP request as issued by the script: a jQuery ajax GET
(the default type, used by refresh) or a POST with form fields. -/
inductive Request where
  | get (url : String)
  | post (url : String) (body : List (String × String))
deriving DecidableEq

/-- JS string coercion of a possibly-undefined string value:
undefined coerces to the string "undefined" in concatenation. -/
def jsStr : Option String → String
  | some s => s
  | none => "undefined"

/-- JS truthiness of a possibly-undefined string: undefined and the empty
string are falsy, every other string is truthy. -/
def jsTruthyStr : Option String → Bool
  | none => false
  | some s => s != ""

/-- The transient UI facts read by refresh at tick time:
whether a bootstrap-datetimepicker-widget element is visible, the value of
the .search field (none when no such element exists), and whether a
.popover element is visible. -/
structure UIState where
  datepickerVisible : Bool
  searchVal : Option String
  popoverVisible : Bool
deriving DecidableEq

/-- The DOM facts touched by initiate and the refresh success callback:
the inner HTML of the container with id list, the number of popover
bindings on a representative .add-popover element, the number of keyup
handlers bound on a representative .search element, and an instrumentation
counter of initiate invocations (not part of the DOM; it counts calls so
that invocation counts can be stated). -/
structure DomState where
  listHtml : String
  popoverBindings : Nat
  keyupBindings : Nat
  initCount : Nat
deriving DecidableEq

/-- Embedding of initiateSearch: the call to keyup on the .search
selection binds one more keyup handler on each matched element (jQuery
adds handlers cumulatively; nothing is unbound here). -/
def initiateSearch (d : DomState) : DomState :=
  { d with keyupBindings := d.keyupBindings + 1 }

/-- Embedding of initiate: popover("destroy") removes the popover binding
of each .add-popover element; the following popover call attaches one
(Bootstrap attaches at most one binding per element); then initiateSearch
runs. The initCount field is the instrumentation counter. -/
def initiate (d : DomState) : DomState :=
  let d1 := { d with popoverBindings := 0 }
  let d2 := { d1 with popoverBindings :=
    if d1.popoverBindings = 0 then 1 else d1.popoverBindings }
  let d3 := initiateSearch d2
  { d3 with initCount := d3.initCount + 1 }

/-- Embedding of refresh up to the fetch decision: when a datepicker
widget is visible, the .search value is truthy, or a popover is visible,
the function returns early and no request is issued; otherwise it issues
the ajax GET of /mails/table/. -/
def refresh (ui : UIState) : Option Request :=
  if ui.datepickerVisible || jsTruthyStr ui.searchVal || ui.popoverVisible then
    none
  else
    some (Request.get "/mails/table/")

/-- Embedding of the refresh success callback: the container with id list
has its HTML replaced by the response data, then initiate runs. -/
def refreshSuccess (data : String) (d : DomState) : DomState :=
  initiate { d with listHtml := data }

/-- One refresh tick together with the response its fetch (if issued)
eventually succeeds with: when the tick was suppressed no request exists
and the DOM is untouched; when a request was issued and succeeds, the
success callback runs. -/
def tickWithResponse (ui : UIState) (d : DomState) (response : String) : DomState :=
  match refresh ui with
  | none => d
  | some _ => refreshSuccess response d

/-- The synchronous effects of one scheduleRefresh call: the request the
inner refresh call issues (if any), and the list of setTimeout delays (in
milliseconds) registered during the call itself, before any ajax
completion can run. -/
structure TickResult where
  request : Option Request
  scheduledDelaysMs : List Nat
deriving DecidableEq

/-- Embedding of scheduleRefresh: it calls refresh, then synchronously
registers one setTimeout of itself with delay 10 * 1000 milliseconds,
whatever refresh did. -/
def scheduleRefreshTick (ui : UIState) : TickResult :=
  { request := refresh ui, scheduledDelaysMs := [10 * 1000] }

/-- A notification as passed to addNotification. -/
structure Notification where
  type : String
  text : String
deriving DecidableEq

/-- Embedding of the global ajax error handler: when the unload flag
isPageBeingRefreshed is not set, it shows one danger notification whose
text defaults to the generic message and is replaced by the 404 message
when the response status is 404, and hides any open modal; when the flag
is set it does nothing. Result: the notifications shown and whether the
modal-hide call ran. -/
def errorHandler (isPageBeingRefreshed : Bool) (status : Nat) :
    List Notification × Bool :=
  if !isPageBeingRefreshed then
    let message := "Ooops, something went wrong"
    let message := if status = 404 then "404 - Page not found" else message
    ([{ type := "danger", text := message }], true)
  else
    ([], false)

/-- The facts newTime reads from its event: the value of the input element
found under the event target (none when absent), and the id attribute of
the closest tr ancestor (none when there is no such ancestor or it has no
id). -/
structure DueCommitEvent where
  inputVal : Option String
  rowId : Option String
deriving DecidableEq

/-- The POST issued by newTime: JS string concatenation builds the URL, so
an undefined id renders literally as "undefined"; the form field due
carries the input value, with undefined coerced the same way by the form
serializer. -/
def newTimeRequest (evt : DueCommitEvent) : Request :=
  Request.post ("/mails/update/" ++ jsStr evt.rowId ++ "/")
    [("due", jsStr evt.inputVal)]

/-- The text contents of the page by element id: none means no element
with that id exists. A jQuery text setter on an empty selection is a
no-op, which the map-over-existing update reflects. -/
def setText (dom : String → Option String) (elemId : String) (v : String) :
    String → Option String :=
  fun e => if e = elemId then (dom elemId).map (fun _ => v) else dom e

/-- Embedding of the done callback of newTime: the element with id
due-&lt;id&gt; has its text set to the posted due value. -/
def newTimeDone (evt : DueCommitEvent) (dom : String → Option String) :
    String → Option String :=
  setText dom ("due-" ++ jsStr evt.rowId) (jsStr evt.inputVal)

/-- The page text contents after the newTime request settles: the done
callback runs only on success; no failure callback is attached, so on
failure the DOM is untouched (the interceptor notification is modelled
separately by errorHandler). -/
def newTimeAfter (evt : DueCommitEvent) (dom : String → Option String)
    (success : Bool) : String → Option String :=
  if success then newTimeDone evt dom else dom

/-- The synchronous effects of one newTime call: exactly the one POST, and
no setTimeout registration (so no refresh is triggered by the updater). -/
def newTimeEffects (evt : DueCommitEvent) : TickResult :=
  { request := some (newTimeRequest evt), scheduledDelaysMs := [] }

/-- Value of a hex digit character, none for a non-hex character. -/
def hexDigitVal (c : Char) : Option Nat :=
  if '0' ≤ c ∧ c ≤ '9' then some (c.toNat - '0'.toNat)
  else if 'a' ≤ c ∧ c ≤ 'f' then some (c.toNat - 'a'.toNat + 10)
  else if 'A' ≤ c ∧ c ≤ 'F' then some (c.toNat - 'A'.toNat + 10)
  else none

/-- UTF-8 encoding of a code point, as a list of byte values. -/
def utf8EncodeNat (n : Nat) : List Nat :=
  if n < 0x80 then [n]
  else if n < 0x800 then [0xC0 + n / 64, 0x80 + n % 64]
  else if n < 0x10000 then
    [0xE0 + n / 4096, 0x80 + (n / 64) % 64, 0x80 + n % 64]
  else
    [0xF0 + n / 262144, 0x80 + (n / 4096) % 64, 0x80 + (n / 64) % 64,
      0x80 + n % 64]

/-- Modelled from the spec: the browser builtin decodeURIComponent, first
phase. Characters pass through as their UTF-8 bytes; a percent sign must
be followed by two hex digits and contributes that byte; anything else is
malformed (none, a URIError in JS). -/
def percentDecodeBytes : List Char → Option (List Nat)
  | [] => some []
  | '%' :: h :: l :: rest =>
    match hexDigitVal h, hexDigitVal l, percentDecodeBytes rest with
    | some a, some b, some t => some ((16 * a + b) :: t)
    | _, _, _ => none
  | '%' :: _ => none
  | c :: rest =>
    match percentDecodeBytes rest with
    | some t => some (utf8EncodeNat c.toNat ++ t)
    | none => none

/-- Whether a byte value is a UTF-8 continuation byte. -/
def isContByte (b : Nat) : Bool := 0x80 ≤ b && b < 0xC0

/-- Modelled from the spec: the browser builtin decodeURIComponent, second
phase. Decodes a byte list as UTF-8, rejecting truncated sequences,
overlong encodings, surrogates and out-of-range code points (none, a
URIError in JS). -/
def utf8DecodeNats : List Nat → Option (List Char)
  | [] => some []
  | b :: rest =>
    if b < 0x80 then
      (utf8DecodeNats rest).map (fun t => Char.ofNat b :: t)
    else if b < 0xC2 then none
    else if b < 0xE0 then
      match rest with
      | b1 :: r =>
        if isContByte b1 then
          (utf8DecodeNats r).map
            (fun t => Char.ofNat ((b - 0xC0) * 64 + (b1 - 0x80)) :: t)
        else none
      | [] => none
    else if b < 0xF0 then
      match rest with
      | b1 :: b2 :: r =>
        let cp := (b - 0xE0) * 4096 + (b1 - 0x80) * 64 + (b2 - 0x80)
        if isContByte b1 && isContByte b2 && decide (0x800 ≤ cp) &&
            decide (cp < 0xD800 ∨ 0xDFFF < cp) then
          (utf8DecodeNats r).map (fun t => Char.ofNat cp :: t)
        else none
      | _ => none
    else if b < 0xF5 then
      match rest with
      | b1 :: b2 :: b3 :: r =>
        let cp := (b - 0xF0) * 262144 + (b1 - 0x80) * 4096 +
          (b2 - 0x80) * 64 + (b3 - 0x80)
        if isContByte b1 && isContByte b2 && isContByte b3 &&
            decide (0x10000 ≤ cp) && decide (cp < 0x110000) then
          (utf8DecodeNats r).map (fun t => Char.ofNat cp :: t)
        else none
      | _ => none
    else none

/-- Modelled from the spec: the browser builtin decodeURIComponent.
Malformed input throws a URIError, modelled as Except.error. -/
def decodeURIComponent (s : List Char) : Except Unit String :=
  match percentDecodeBytes s with
  | none => Except.error ()
  | some bs =>
    match utf8DecodeNats bs with
    | none => Except.error ()
    | some cs => Except.ok (String.mk cs)

/-- The JS string split by a single-character separator: splitting the
empty string yields one empty piece, and every separator occurrence starts
a new piece. -/
def splitOnChar (sep : Char) : List Char → List (List Char)
  | [] => [[]]
  | c :: rest =>
    match splitOnChar sep rest with
    | [] => if c = sep then [[], []] else [[c]]
    | h :: t => if c = sep then [] :: h :: t else (c :: h) :: t

/-- The jQuery trim of a string: strip leading and trailing whitespace. -/
def trimChars (l : List Char) : List Char :=
  ((l.dropWhile Char.isWhitespace).reverse.dropWhile Char.isWhitespace).reverse

/-- The loop body of getCookie over the split cookie entries: trim each
entry, compare its first name.length + 1 characters with name followed by
the equals sign, and on the first match return the decoded remainder
(breaking out of the loop). -/
def getCookieLoop (name : List Char) :
    List (List Char) → Except Unit (Option String)
  | [] => Except.ok none
  | c :: rest =>
    let cookie := trimChars c
    if cookie.take (name.length + 1) = name ++ ['='] then
      match decodeURIComponent (cookie.drop (name.length + 1)) with
      | Except.ok v => Except.ok (some v)
      | Except.error e => Except.error e
    else getCookieLoop name rest

/-- Embedding of getCookie: when document.cookie is truthy and non-empty
(both conditions hold exactly for a non-empty string), split it on
semicolons and scan for the first entry carrying the name; otherwise the
initial null survives. -/
def getCookie (documentCookie : String) (name : String) :
    Except Unit (Option String) :=
  if documentCookie ≠ "" then
    getCookieLoop name.toList (splitOnChar ';' documentCookie.toList)
  else
    Except.ok none

/-- Whether one char list starts with another (the match of an anchored
literal pattern at the head of the text). -/
def startsWithCh : List Char → List Char → Bool
  | [], _ => true
  | _ :: _, [] => false
  | a :: as, b :: bs => a == b && startsWithCh as bs

/-- The JS regex test of the anchored pattern http: followed by any
characters: true exactly when the string starts with http: (the trailing
dot-star may match the empty remainder). -/
def testHttpAnchored (url : String) : Bool :=
  startsWithCh "http:".toList url.toList

/-- The JS regex test of the anchored pattern https: followed by any
characters. -/
def testHttpsAnchored (url : String) : Bool :=
  startsWithCh "https:".toList url.toList

/-- The request headers set on a jqXHR before sending: each
setRequestHeader call appends its name/value pair. A none value models the
JS null that getCookie yields when the cookie is absent. -/
structure Xhr where
  requestHeaders : List (String × Option String)
deriving DecidableEq

/-- Embedding of a setRequestHeader call on the jqXHR. -/
def setRequestHeader (xhr : Xhr) (name : String) (value : Option String) :
    Xhr :=
  { xhr with requestHeaders := xhr.requestHeaders ++ [(name, value)] }

/-- Embedding of the ajaxSetup beforeSend hook: unless the settings URL
passes the http: or https: anchored regex test, set the X-CSRFToken header
to the value getCookie returns for csrftoken. A decode error propagates as
a thrown exception. -/
def beforeSend (documentCookie : String) (xhr : Xhr) (settingsUrl : String) :
    Except Unit Xhr :=
  if !(testHttpAnchored settingsUrl || testHttpsAnchored settingsUrl) then
    match getCookie documentCookie "csrftoken" with
    | Except.ok v => Except.ok (setRequestHeader xhr "X-CSRFToken" v)
    | Except.error e => Except.error e
  else Except.ok xhr

/-- The headers a request to the given URL carries after beforeSend runs
on a fresh jqXHR with the given document.cookie. -/
def sentHeaders (documentCookie url : String) :
    Except Unit (List (String × Option String)) :=
  match beforeSend documentCookie { requestHeaders := [] } url with
  | Except.ok xhr => Except.ok xhr.requestHeaders
  | Except.error e => Except.error e

/-- Whether the X-CSRFToken header is attached to a request to the given
URL (on the non-throwing path). -/
def headerAttachedB (documentCookie url : String) : Bool :=
  match sentHeaders documentCookie url with
  | Except.ok hs => hs.any (fun p => p.1 == "X-CSRFToken")
  | Except.error _ => false

/-- Formalised from the words of the claim, for comparison with the code: a URL
is absolute when it starts with an explicit scheme, i.e. a letter followed
by letters, digits, plus, minus or dot, terminated by a colon. -/
def schemeTail : List Char → Bool
  | [] => false
  | ':' :: _ => true
  | c :: r => (c.isAlpha || c.isDigit || c == '+' || c == '-' || c == '.') &&
      schemeTail r

/-- Formalised from the words of the claim: whether the URL starts with an
explicit scheme. -/
def specIsAbsoluteUrl (url : String) : Bool :=
  match url.toList with
  | [] => false
  | c :: rest => c.isAlpha && schemeTail rest

/-- A table row as the search filter reads it: the display texts of its
descendant .subject, .sent and .due elements. -/
structure Row where
  subject : String
  sent : String
  due : String
deriving DecidableEq

/-- The string the keyup handler tests the pattern against: the three
texts joined with single spaces. -/
def rowText (r : Row) : String :=
  String.intercalate " " [r.subject, r.sent, r.due]

/-- The lowercase character list of a string (the ASCII case folding the
case-insensitive regex flag performs on letters). -/
def lowerList (s : String) : List Char :=
  s.toList.map Char.toLower

/-- Naive substring search over char lists: try an anchored match at every
suffix of the text. -/
def containsSub (needle : List Char) : List Char → Bool
  | [] => needle.isEmpty
  | b :: bs => startsWithCh needle (b :: bs) || containsSub needle bs

/-- The JS test of new RegExp(key, "i") against a string, for a key that
is a well-formed pattern without special characters: such a pattern
matches exactly at the occurrences of the key as a substring, compared
case-insensitively. -/
def regexTestLiteralI (key s : String) : Bool :=
  containsSub (lowerList key) (lowerList s)

/-- Embedding of the per-row decision of the keyup handler: the row is shown
when the pattern test succeeds on its joined texts and hidden otherwise;
the result is its visibility after the keystroke. -/
def rowVisibleAfterKeyup (key : String) (r : Row) : Bool :=
  regexTestLiteralI key (rowText r)

/-- Claim-side notion for the search filter: the row text
case-insensitively contains the query. -/
def ciContains (hay needle : String) : Prop :=
  ∃ p t, lowerList hay = p ++ lowerList needle ++ t

/-- An anchored match succeeds exactly when the text extends the pattern. -/
theorem startsWithCh_iff (n h : List Char) :
    startsWithCh n h = true ↔ ∃ t, h = n ++ t := by
  induction n generalizing h with
  | nil =>
    simp [startsWithCh]
  | cons a as ih =>
    cases h with
    | nil =>
      simp [startsWithCh]
    | cons b bs =>
      simp only [startsWithCh, Bool.and_eq_true, beq_iff_eq, ih,
        List.cons_append, List.cons_eq_cons]
      constructor
      · rintro ⟨rfl, t, rfl⟩
        exact ⟨t, rfl, rfl⟩
      · rintro ⟨t, rfl, rfl⟩
        exact ⟨rfl, t, rfl⟩

/-- The naive substring search succeeds exactly when the needle occurs as
a contiguous segment of the text. -/
theorem containsSub_iff (n h : List Char) :
    containsSub n h = true ↔ ∃ p t, h = p ++ n ++ t := by
  induction h with
  | nil =>
    simp only [containsSub, List.isEmpty_iff]
    constructor
    · rintro rfl
      exact ⟨[], [], rfl⟩
    · rintro ⟨p, t, hp⟩
      rcases List.append_eq_nil.mp hp.symm with ⟨hpn, rfl⟩
      exact (List.append_eq_nil.mp hpn).2
  | cons b bs ih =>
    simp only [containsSub, Bool.or_eq_true, startsWithCh_iff, ih]
    constructor
    · rintro (⟨t, ht⟩ | ⟨p, t, rfl⟩)
      · exact ⟨[], t, by simpa using ht⟩
      · exact ⟨b :: p, t, rfl⟩
    · rintro ⟨p, t, hp⟩
      cases p with
      | nil =>
        exact Or.inl ⟨t, by simpa using hp⟩
      | cons x xs =>
        refine Or.inr ⟨xs, t, ?_⟩
        have : b :: bs = x :: (xs ++ n ++ t) := by simpa using hp
        exact (List.cons_eq_cons.mp this).2

/-- The empty pattern matches every text. -/
theorem containsSub_nil (h : List Char) : containsSub [] h = true := by
  cases h <;> simp [containsSub, startsWithCh]

/-- C1: a refresh tick issues no fetch exactly when a date-picker overlay
is visible, the search field holds a non-empty value, or a popover overlay
is visible; in every other state the tick issues the GET request for
/mails/table/. -/
theorem C1_refresh_suppression (ui : UIState) :
    (refresh ui = none ↔
      (ui.datepickerVisible = true ∨
        (∃ s, ui.searchVal = some s ∧ s ≠ "") ∨
        ui.popoverVisible = true)) ∧
    (refresh ui = none ∨ refresh ui = some (Request.get "/mails/table/")) := by
  obtain ⟨dp, sv, po⟩ := ui
  constructor
  · rcases sv with _ | s
    · cases dp <;> cases po <;> simp [refresh, jsTruthyStr]
    · by_cases hs : s = "" <;> cases dp <;> cases po <;>
        simp [refresh, jsTruthyStr, hs]
  · by_cases hc : (dp || jsTruthyStr (sv : Option String) || po) = true <;>
      simp [refresh, hc]

/-- C2 evaluated at the failing input: starting from a fresh DOM with no
bindings, running initiate twice leaves two keyup handlers bound on the
.search element (each run adds one and none is removed), while the popover
binding count is one; the initializer is therefore not idempotent for the
keyup binding, against the stated requirement. -/
theorem C2_initiate_twice_eval :
    (initiate (initiate (DomState.mk "" 0 0 0))).keyupBindings = 2 ∧
    (initiate (initiate (DomState.mk "" 0 0 0))).popoverBindings = 1 := by
  decide

/-- C3: for a tick whose fetch is issued and succeeds with fragment data,
the container with id list afterwards holds exactly that data and initiate
has run exactly once more. -/
theorem C3_refresh_success (ui : UIState) (d : DomState) (data : String)
    (h : refresh ui ≠ none) :
    (tickWithResponse ui d data).listHtml = data ∧
    (tickWithResponse ui d data).initCount = d.initCount + 1 := by
  unfold tickWithResponse
  cases hr : refresh ui with
  | none => exact absurd hr h
  | some r => simp [refreshSuccess, initiate, initiateSearch]

/-- Witness for C3 at a concrete non-suppressed state. -/
theorem C3_refresh_success_witness :
    refresh (UIState.mk false (some "") false) ≠ none ∧
    ((tickWithResponse (UIState.mk false (some "") false)
        (DomState.mk "old" 1 1 1) "fresh").listHtml = "fresh" ∧
      (tickWithResponse (UIState.mk false (some "") false)
        (DomState.mk "old" 1 1 1) "fresh").initCount = 2) :=
  ⟨by decide, C3_refresh_success _ _ _ (by decide)⟩

/-- C4: after a keystroke, the empty query leaves every row visible, and a
well-formed query without special characters leaves a row visible exactly
when the space-joined subject, sent and due texts contain it
case-insensitively. -/
theorem C4_search_filter (key : String) (r : Row) :
    rowVisibleAfterKeyup "" r = true ∧
    (rowVisibleAfterKeyup key r = true ↔ ciContains (rowText r) key) := by
  constructor
  · have he : lowerList "" = [] := rfl
    simp [rowVisibleAfterKeyup, regexTestLiteralI, he, containsSub_nil]
  · exact containsSub_iff _ _

/-- C5 as stated is false at this input: the URL ftp://backend/ is
absolute (it starts with the explicit scheme ftp), so the claim says the
header is never attached, yet beforeSend attaches the X-CSRFToken header
because the URL fails both the http: and the https: anchored tests. -/
theorem C5_counterexample :
    specIsAbsoluteUrl "ftp://backend/" = true ∧
    headerAttachedB "" "ftp://backend/" = true := by
  decide

/-- C5 amended: the X-CSRFToken header is attached exactly when the target
URL does not start with http: or https: (so absolute URLs with any other
scheme still receive it), and whenever attached it carries the value
getCookie reads for csrftoken. -/
theorem C5_csrf_header (documentCookie url : String)
    (hs : List (String × Option String))
    (h : sentHeaders documentCookie url = Except.ok hs) :
    (hs.any (fun p => p.1 == "X-CSRFToken") =
      !(testHttpAnchored url || testHttpsAnchored url)) ∧
    (∀ v, ("X-CSRFToken", v) ∈ hs →
      getCookie documentCookie "csrftoken" = Except.ok v) := by
  unfold sentHeaders beforeSend at h
  by_cases hc : (testHttpAnchored url || testHttpsAnchored url) = true
  · rw [hc] at h
    simp only [Bool.not_true, Bool.false_eq_true, if_false] at h
    cases h
    simp [hc]
  · rw [Bool.not_eq_true] at hc
    rw [hc] at h
    simp only [Bool.not_false, if_true] at h
    cases hg : getCookie documentCookie "csrftoken" with
    | error e =>
      rw [hg] at h
      cases h
    | ok v0 =>
      rw [hg] at h
      simp only [setRequestHeader, List.nil_append, Except.ok.injEq] at h
      subst h
      refine ⟨by simp [hc], ?_⟩
      intro v hv
      simp only [List.mem_singleton, Prod.mk.injEq, true_and] at hv
      subst hv
      rfl

/-- Witness for C5 at a concrete cookie store and relative URL. -/
theorem C5_csrf_header_witness :
    ([("X-CSRFToken", some "abc")] : List (String × Option String)).any
      (fun p => p.1 == "X-CSRFToken") =
      !(testHttpAnchored "/mails/table/" ||
        testHttpsAnchored "/mails/table/") :=
  (C5_csrf_header "a=1; csrftoken=abc" "/mails/table/"
    [("X-CSRFToken", some "abc")] (by decide)).1

/-- C6: with the unload flag set the error handler shows nothing and does
not touch the modal; with the flag clear it shows exactly one danger
notification, whose text is the page-not-found message for status 404 and
the generic message otherwise, and hides any open modal. -/
theorem C6_error_notifications (status : Nat) :
    errorHandler true status = ([], false) ∧
    ∃ n, errorHandler false status = ([n], true) ∧
      n.type = "danger" ∧
      n.text = (if status = 404 then "404 - Page not found"
        else "Ooops, something went wrong") := by
  refine ⟨rfl, ⟨Notification.mk "danger"
    (if status = 404 then "404 - Page not found"
      else "Ooops, something went wrong"), ?_, rfl, rfl⟩⟩
  simp [errorHandler]

/-- C7: a due-date commit on row id with value v issues the POST to
/mails/update/id/ carrying the due field; on failure the page text is
unchanged; on success exactly the element due-id is set to v (when it
exists) and every other element keeps its text; the updater performs no
other request and schedules no refresh. -/
theorem C7_due_update (id v : String) (dom : String → Option String) :
    newTimeRequest { inputVal := some v, rowId := some id } =
      Request.post ("/mails/update/" ++ id ++ "/") [("due", v)] ∧
    newTimeAfter { inputVal := some v, rowId := some id } dom false = dom ∧
    (∀ e, newTimeAfter { inputVal := some v, rowId := some id } dom true e =
      if e = "due-" ++ id then (dom e).map (fun _ => v) else dom e) ∧
    newTimeEffects { inputVal := some v, rowId := some id } =
      { request := some (Request.post ("/mails/update/" ++ id ++ "/")
          [("due", v)]),
        scheduledDelaysMs := [] } := by
  refine ⟨rfl, rfl, ?_, rfl⟩
  intro e
  simp only [newTimeAfter, if_true, newTimeDone, setText, jsStr]
  by_cases he : e = "due-" ++ id
  · subst he
    simp
  · simp [he]

/-- C8: every tick of the refresh loop, suppressed or not and whatever its
fetch later does, synchronously schedules exactly one next tick with the
fixed 10 second (10 * 1000 millisecond) delay; no tick schedules zero
continuations, so the loop is never stopped. -/
theorem C8_tick_reschedules (ui : UIState) :
    (scheduleRefreshTick ui).scheduledDelaysMs = [10 * 1000] ∧
    (scheduleRefreshTick ui).scheduledDelaysMs.length = 1 :=
  ⟨rfl, rfl⟩

/-- C9: when the csrftoken cookie is absent, a request to a URL that fails
the http:/https: tests still gets the X-CSRFToken header attached, with
the empty (null) cookie value in place of a token. -/
theorem C9_absent_cookie_header (documentCookie url : String)
    (hc : getCookie documentCookie "csrftoken" = Except.ok none)
    (hu : (testHttpAnchored url || testHttpsAnchored url) = false) :
    sentHeaders documentCookie url = Except.ok [("X-CSRFToken", none)] := by
  unfold sentHeaders beforeSend
  rw [hu]
  simp [hc, setRequestHeader]

/-- Witness for C9 at a concrete cookie store without csrftoken and a
relative URL. -/
theorem C9_absent_cookie_header_witness :
    sentHeaders "a=1" "/mails/update/42/" =
      Except.ok [("X-CSRFToken", none)] :=
  C9_absent_cookie_header "a=1" "/mails/update/42/" (by decide) (by decide)

/-- C10: a due-date commit whose event has no tr ancestor with an id still
issues its POST, with the undefined row id rendered literally into the
URL path as /mails/update/undefined/; nothing guards against the
unresolvable identifier. -/
theorem C10_missing_row_id (v : Option String) :
    newTimeRequest { inputVal := v, rowId := none } =
      Request.post "/mails/update/undefined/" [("due", jsStr v)] ∧
    newTimeEffects { inputVal := v, rowId := none } =
      { request := some (Request.post "/mails/update/undefined/"
          [("due", jsStr v)]),
        scheduledDelaysMs := [] } :=
  ⟨rfl, rfl⟩

end mailtable
